import Mathlib

/-!
Verification of the OAuth2 client-credentials token cache of hermes-client.

The definitions below are a shallow embedding of `src/config.rs` (the
`EbayConfig` structure and its `base_url` method) and `src/ebay/auth.rs`
(the `EbayToken` / `EbayAuth` structures and the `new`, `get_access_token`,
`refresh_token`, `get_auth_header` methods).

Modelling choices:
- `Instant` is a `Nat` tick of the monotonic clock; `Instant::now() +
  Duration::from_secs(n)` becomes `now + n`; `u64::saturating_sub` is
  `Nat` subtraction, which saturates at zero.
- The HTTP world is an oracle value `HttpOutcome` given to the call: either
  the send itself failed, or a response arrived with a status code, a body
  text (the result of `.text().await.unwrap_or_default()`) and the result
  of deserializing the body into an `EbayToken` (the result of
  `.json().await`).
- The sequential semantics threads the two mutex-guarded slots explicitly:
  an operation takes the current `EbayAuth` state and returns the result,
  the new state, and the number of HTTP sends it performed.  `tCheck` is
  the `Instant::now()` of the fast-path validity check (auth.rs line 47)
  and `tCommit` the `Instant::now()` of the store after a successful
  refresh (auth.rs line 100); a real execution has `tCheck ≤ tCommit`.
- `get_access_token` returns `Option` so that the `unwrap()` on its slow
  path (auth.rs line 57) is modelled honestly: `none` is the panic case.
- The interleaved semantics of the two-mutex protocol is a separate
  transition system, `TwoLock`, further below.
-/

namespace HermesClient

/-- `EbayConfig` from src/config.rs. -/
structure EbayConfig where
  app_id : String
  cert_id : String
  dev_id : Option String
  sandbox : Bool
  oauth_token : Option String
  deriving Repr, DecidableEq

/-- `EbayConfig::base_url` from src/config.rs lines 49-55. -/
def EbayConfig.base_url (c : EbayConfig) : String :=
  if c.sandbox then "https://api.sandbox.ebay.com" else "https://api.ebay.com"

/-- `HermesError` from src/error.rs; foreign error payloads are rendered
as their display strings. -/
inductive HermesError where
  | Authentication (detail : String)
  | ApiRequest (detail : String)
  | RateLimit (detail : String)
  | Configuration (detail : String)
  | Serialization (detail : String)
  | Http (detail : String)
  | Io (detail : String)
  | Unknown (detail : String)
  deriving Repr, DecidableEq

/-- `EbayToken` from src/ebay/auth.rs lines 11-17. -/
structure EbayToken where
  access_token : String
  token_type : String
  expires_in : Nat
  scope : Option String
  deriving Repr, DecidableEq

/-- The state of an `EbayAuth` handler (src/ebay/auth.rs lines 20-25):
the immutable config plus the two mutex-guarded slots.  The `reqwest`
client holds no observable state and is omitted. -/
structure EbayAuth where
  config : EbayConfig
  token : Option EbayToken
  token_expires_at : Option Nat
  deriving Repr, DecidableEq

/-- `EbayAuth::new` (src/ebay/auth.rs lines 29-37): wraps the config with
empty token slots in `Ok`. -/
def EbayAuth.new (config : EbayConfig) : Except HermesError EbayAuth :=
  .ok { config := config, token := none, token_expires_at := none }

/-- The outcome the HTTP world hands to one `send()` of the token POST. -/
inductive HttpOutcome where
  | sendError (msg : String)
  | response (status : Nat) (bodyText : String) (parsed : Except String EbayToken)
  deriving Repr

/-- `reqwest::StatusCode::is_success`: status in 200..=299. -/
def statusIsSuccess (status : Nat) : Bool :=
  decide (200 ≤ status) && decide (status ≤ 299)

/-- The HTTP request `refresh_token` builds (src/ebay/auth.rs lines
62-76): URL, basic auth from the config, and the form body. -/
structure HttpRequest where
  url : String
  basicAuthUser : String
  basicAuthPass : Option String
  formParams : List (String × String)
  deriving Repr, DecidableEq

/-- The request constructed by `EbayAuth::refresh_token` before sending
(src/ebay/auth.rs lines 62-76). -/
def refresh_request (config : EbayConfig) : HttpRequest :=
  { url := config.base_url ++ "/identity/v1/oauth2/token"
    basicAuthUser := config.app_id
    basicAuthPass := some config.cert_id
    formParams := [("grant_type", "client_credentials"),
                   ("scope", "https://api.ebay.com/oauth/api_scope")] }

/-- `EbayAuth::refresh_token` (src/ebay/auth.rs lines 61-104) as a state
transformer: `now` is the `Instant::now()` of the store at line 100,
`http` the outcome of the single `send()`.  On any failure the state is
not returned (the caller keeps the old one); on success both slots are
overwritten, the expiry being `now + expires_in.saturating_sub(60)`. -/
def EbayAuth.refresh_token (a : EbayAuth) (now : Nat) (http : HttpOutcome) :
    Except HermesError EbayAuth :=
  match http with
  | .sendError msg => .error (.Authentication msg)
  | .response status bodyText parsed =>
    if !statusIsSuccess status then
      .error (.Authentication
        ("Failed to get token: " ++ toString status ++ " - " ++ bodyText))
    else
      match parsed with
      | .error e => .error (.Authentication ("Failed to parse token response: " ++ e))
      | .ok token =>
        .ok { a with
                token := some token
                token_expires_at := some (now + (token.expires_in - 60)) }

/-- What one call of `get_access_token` produces: the `HermesResult`, the
state of the two slots afterwards, and how many HTTP sends happened. -/
structure GetTokenResult where
  result : Except HermesError String
  state : EbayAuth
  httpCalls : Nat
  deriving Repr

/-- The slow path of `get_access_token` (src/ebay/auth.rs lines 53-57):
refresh, then read the token slot and `unwrap()` it.  `none` models the
panic of the `unwrap()` on an empty slot. -/
def EbayAuth.get_access_token_slow (a : EbayAuth) (http : HttpOutcome) (tCommit : Nat) :
    Option GetTokenResult :=
  match a.refresh_token tCommit http with
  | .error e => some ⟨.error e, a, 1⟩
  | .ok a1 =>
    match a1.token with
    | some token => some ⟨.ok token.access_token, a1, 1⟩
    | none => none

/-- `EbayAuth::get_access_token` (src/ebay/auth.rs lines 40-58): return
the cached token when both slots are set and `tCheck < expires_at`,
otherwise refresh and return the newly stored token. -/
def EbayAuth.get_access_token (a : EbayAuth) (tCheck : Nat) (http : HttpOutcome)
    (tCommit : Nat) : Option GetTokenResult :=
  match a.token, a.token_expires_at with
  | some token, some expires_at =>
    if tCheck < expires_at then some ⟨.ok token.access_token, a, 0⟩
    else a.get_access_token_slow http tCommit
  | some _, none => a.get_access_token_slow http tCommit
  | none, _ => a.get_access_token_slow http tCommit

/-- `EbayAuth::get_auth_header` (src/ebay/auth.rs lines 107-110):
`get_access_token` with `?`-propagation, then `format!("Bearer {}", t)`. -/
def EbayAuth.get_auth_header (a : EbayAuth) (tCheck : Nat) (http : HttpOutcome)
    (tCommit : Nat) : Option GetTokenResult :=
  match a.get_access_token tCheck http tCommit with
  | none => none
  | some r =>
    match r.result with
    | .error e => some ⟨.error e, r.state, r.httpCalls⟩
    | .ok token => some ⟨.ok ("Bearer " ++ token), r.state, r.httpCalls⟩

/-- The guard of the fast path (src/ebay/auth.rs lines 46-47): both slots
are populated and the check instant is strictly before the expiry. -/
def EbayAuth.cacheValid (a : EbayAuth) (now : Nat) : Bool :=
  match a.token, a.token_expires_at with
  | some _, some expires_at => decide (now < expires_at)
  | _, _ => false

/-- A concrete configuration used to evaluate the model on closed inputs. -/
def sampleConfig : EbayConfig :=
  { app_id := "app", cert_id := "cert", dev_id := none, sandbox := true,
    oauth_token := none }

/-- A freshly constructed handler: both slots empty. -/
def sampleAuth : EbayAuth :=
  { config := sampleConfig, token := none, token_expires_at := none }

/-- A concrete token response body with the given `expires_in`. -/
def sampleToken (expires_in : Nat) : EbayToken :=
  { access_token := "tok", token_type := "Bearer", expires_in := expires_in,
    scope := none }

/-- The state a successful refresh commits at instant `tCommit` after
parsing `token` (src/ebay/auth.rs lines 95-101). -/
def refreshedState (a : EbayAuth) (token : EbayToken) (tCommit : Nat) : EbayAuth :=
  { a with
      token := some token
      token_expires_at := some (tCommit + (token.expires_in - 60)) }

/-- A handler whose cache is pre-loaded with a token expiring at tick 1000. -/
def loadedAuth : EbayAuth :=
  { config := sampleConfig, token := some (sampleToken 3600),
    token_expires_at := some 1000 }

end HermesClient

/-!
The `TwoLock` transition system: the interleaved semantics of the
two-mutex protocol of src/ebay/auth.rs.  Each task is one critical-section
run over the shared slots:

- `r` tasks: the dual-field read of `get_access_token` lines 42-51
  (acquire token lock, acquire expiry lock, read token, read expiry,
  release both at the end of the scope);
- `u` tasks: the single-field read of `get_access_token` lines 56-57
  (acquire token lock, read token, release);
- `w` tasks: `refresh_token`: at `w0` the network exchange (lines 73-92)
  is in flight with no lock held; `w1`-`w6` is the store block of lines
  95-101 (acquire token lock, acquire expiry lock, write token, write
  expiry, release both).

The slot contents are abstracted to version numbers: writer `i` commits
the pair `(ver, ver)`, so a reader that ends with `regTok ≠ regExp` would
have observed a token from one refresh paired with the expiry of another.
Lock acquisition steps are enabled only when the lock is free, matching
`tokio::sync::Mutex`.
-/

namespace TwoLock

/-- Program counter of one critical-section run. -/
inductive Phase where
  | r0 | r1 | r2 | r3 | r4 | r5
  | u0 | u1 | u2 | u3
  | w0 | w1 | w2 | w3 | w4 | w5 | w6
  deriving Repr, DecidableEq

/-- One task: its program counter, the version it will write (writers),
and the registers its reads landed in (readers). -/
structure Task where
  phase : Phase
  ver : Nat
  regTok : Nat
  regExp : Nat
  deriving Repr, DecidableEq

/-- The shared state: the task pool, the two `tokio::sync::Mutex` locks
(holder index when held), and the two guarded slots. -/
structure Sys where
  tasks : Nat → Task
  tokLock : Option Nat
  expLock : Option Nat
  tokVal : Nat
  expVal : Nat

/-- Phases at which a task holds the token lock. -/
def holdsTok : Phase → Bool
  | .r1 | .r2 | .r3 | .r4 | .u1 | .u2 | .w2 | .w3 | .w4 | .w5 => true
  | _ => false

/-- Phases at which a task holds the expiry lock. -/
def holdsExp : Phase → Bool
  | .r2 | .r3 | .r4 | .w3 | .w4 | .w5 => true
  | _ => false

/-- Replace only the phase of a task. -/
def setPhase (t : Task) (p : Phase) : Task := { t with phase := p }

/-- One interleaving step: some task advances by one instruction. -/
inductive Step : Sys → Sys → Prop where
  | readAcqTok (s : Sys) (i : Nat) (h : (s.tasks i).phase = .r0)
      (hl : s.tokLock = none) :
      Step s { s with tasks := Function.update s.tasks i (setPhase (s.tasks i) .r1),
                      tokLock := some i }
  | readAcqExp (s : Sys) (i : Nat) (h : (s.tasks i).phase = .r1)
      (hl : s.expLock = none) :
      Step s { s with tasks := Function.update s.tasks i (setPhase (s.tasks i) .r2),
                      expLock := some i }
  | readTok (s : Sys) (i : Nat) (h : (s.tasks i).phase = .r2) :
      Step s { s with tasks := Function.update s.tasks i
                        { s.tasks i with phase := .r3, regTok := s.tokVal } }
  | readExp (s : Sys) (i : Nat) (h : (s.tasks i).phase = .r3) :
      Step s { s with tasks := Function.update s.tasks i
                        { s.tasks i with phase := .r4, regExp := s.expVal } }
  | readRel (s : Sys) (i : Nat) (h : (s.tasks i).phase = .r4) :
      Step s { s with tasks := Function.update s.tasks i (setPhase (s.tasks i) .r5),
                      tokLock := none, expLock := none }
  | slowAcqTok (s : Sys) (i : Nat) (h : (s.tasks i).phase = .u0)
      (hl : s.tokLock = none) :
      Step s { s with tasks := Function.update s.tasks i (setPhase (s.tasks i) .u1),
                      tokLock := some i }
  | slowRead (s : Sys) (i : Nat) (h : (s.tasks i).phase = .u1) :
      Step s { s with tasks := Function.update s.tasks i
                        { s.tasks i with phase := .u2, regTok := s.tokVal } }
  | slowRel (s : Sys) (i : Nat) (h : (s.tasks i).phase = .u2) :
      Step s { s with tasks := Function.update s.tasks i (setPhase (s.tasks i) .u3),
                      tokLock := none }
  | netDone (s : Sys) (i : Nat) (h : (s.tasks i).phase = .w0) :
      Step s { s with tasks := Function.update s.tasks i (setPhase (s.tasks i) .w1) }
  | wrAcqTok (s : Sys) (i : Nat) (h : (s.tasks i).phase = .w1)
      (hl : s.tokLock = none) :
      Step s { s with tasks := Function.update s.tasks i (setPhase (s.tasks i) .w2),
                      tokLock := some i }
  | wrAcqExp (s : Sys) (i : Nat) (h : (s.tasks i).phase = .w2)
      (hl : s.expLock = none) :
      Step s { s with tasks := Function.update s.tasks i (setPhase (s.tasks i) .w3),
                      expLock := some i }
  | wrTok (s : Sys) (i : Nat) (h : (s.tasks i).phase = .w3) :
      Step s { s with tasks := Function.update s.tasks i (setPhase (s.tasks i) .w4),
                      tokVal := (s.tasks i).ver }
  | wrExp (s : Sys) (i : Nat) (h : (s.tasks i).phase = .w4) :
      Step s { s with tasks := Function.update s.tasks i (setPhase (s.tasks i) .w5),
                      expVal := (s.tasks i).ver }
  | wrRel (s : Sys) (i : Nat) (h : (s.tasks i).phase = .w5) :
      Step s { s with tasks := Function.update s.tasks i (setPhase (s.tasks i) .w6),
                      tokLock := none, expLock := none }

/-- Initial states: both locks free, a consistent slot pair, every task
at the start of its run. -/
def Init (s : Sys) : Prop :=
  s.tokLock = none ∧ s.expLock = none ∧ s.tokVal = s.expVal ∧
  ∀ i, (s.tasks i).phase = .r0 ∨ (s.tasks i).phase = .u0 ∨ (s.tasks i).phase = .w0

/-- The inductive invariant: lock bookkeeping matches the program
counters, a half-written pair exists only while its writer is at `w4`
holding both locks, and completed dual reads are consistent. -/
def Inv (s : Sys) : Prop :=
  (∀ i, s.tokLock = some i ↔ holdsTok (s.tasks i).phase = true) ∧
  (∀ i, s.expLock = some i ↔ holdsExp (s.tasks i).phase = true) ∧
  (∀ i, (s.tasks i).phase = .w4 → s.tokVal = (s.tasks i).ver) ∧
  ((∀ i, (s.tasks i).phase ≠ .w4) → s.tokVal = s.expVal) ∧
  (∀ i, (s.tasks i).phase = .r3 → (s.tasks i).regTok = s.tokVal) ∧
  (∀ i, ((s.tasks i).phase = .r4 ∨ (s.tasks i).phase = .r5) →
    (s.tasks i).regTok = (s.tasks i).regExp)

end TwoLock

namespace HermesClient

/-- A refresh that returns `Ok` saw a success response whose body parsed,
and the new state overwrites both slots with the parsed token and the
margin-adjusted expiry. -/
theorem refresh_token_ok_shape {a a1 : EbayAuth} {now : Nat} {http : HttpOutcome}
    (h : a.refresh_token now http = .ok a1) :
    ∃ status bodyText token,
      http = .response status bodyText (.ok token) ∧
      statusIsSuccess status = true ∧
      a1 = { a with token := some token,
                    token_expires_at := some (now + (token.expires_in - 60)) } := by
  cases http with
  | sendError msg => simp [EbayAuth.refresh_token] at h
  | response status bodyText parsed =>
    cases hs : statusIsSuccess status with
    | false => simp [EbayAuth.refresh_token, hs] at h
    | true =>
      cases parsed with
      | error e => simp [EbayAuth.refresh_token, hs] at h
      | ok token =>
        refine ⟨status, bodyText, token, rfl, hs, ?_⟩
        simp [EbayAuth.refresh_token, hs] at h
        exact h.symm

/-- A refresh that returns an error saw a send failure, a non-2xx status,
or an unparseable 2xx body, and the error is the corresponding
`Authentication` message. -/
theorem refresh_token_error_shape {a : EbayAuth} {now : Nat} {http : HttpOutcome}
    {e : HermesError} (h : a.refresh_token now http = .error e) :
    (∃ msg, http = .sendError msg ∧ e = .Authentication msg) ∨
    (∃ status bodyText parsed, http = .response status bodyText parsed ∧
      statusIsSuccess status = false ∧
      e = .Authentication
        ("Failed to get token: " ++ toString status ++ " - " ++ bodyText)) ∨
    (∃ status bodyText pe, http = .response status bodyText (.error pe) ∧
      statusIsSuccess status = true ∧
      e = .Authentication ("Failed to parse token response: " ++ pe)) := by
  cases http with
  | sendError msg =>
    simp [EbayAuth.refresh_token] at h
    exact Or.inl ⟨msg, rfl, h.symm⟩
  | response status bodyText parsed =>
    cases hs : statusIsSuccess status with
    | false =>
      simp [EbayAuth.refresh_token, hs] at h
      exact Or.inr (Or.inl ⟨status, bodyText, parsed, rfl, hs, h.symm⟩)
    | true =>
      cases parsed with
      | error pe =>
        simp [EbayAuth.refresh_token, hs] at h
        exact Or.inr (Or.inr ⟨status, bodyText, pe, rfl, hs, h.symm⟩)
      | ok token => simp [EbayAuth.refresh_token, hs] at h

/-- When the fast-path guard fails, `get_access_token` is the slow path. -/
theorem get_access_token_of_invalid {a : EbayAuth} {tCheck : Nat}
    (h : a.cacheValid tCheck = false) (http : HttpOutcome) (tCommit : Nat) :
    a.get_access_token tCheck http tCommit = a.get_access_token_slow http tCommit := by
  unfold EbayAuth.get_access_token
  cases htok : a.token with
  | none => rfl
  | some token =>
    cases hexp : a.token_expires_at with
    | none => rfl
    | some expires_at =>
      have hv : ¬ tCheck < expires_at := by
        simp [EbayAuth.cacheValid, htok, hexp] at h
        omega
      simp [hv]

/-- The slow path either propagates the refresh error with the state
untouched, or returns the access token of the state just committed by the
refresh; either way it performed the one send. -/
theorem slow_shape (a : EbayAuth) (http : HttpOutcome) (tCommit : Nat) :
    (∃ e, a.refresh_token tCommit http = .error e ∧
      a.get_access_token_slow http tCommit = some ⟨.error e, a, 1⟩) ∨
    (∃ token, a.refresh_token tCommit http = .ok (refreshedState a token tCommit) ∧
      a.get_access_token_slow http tCommit =
        some ⟨.ok token.access_token, refreshedState a token tCommit, 1⟩) := by
  unfold EbayAuth.get_access_token_slow
  cases hr : a.refresh_token tCommit http with
  | error e => exact Or.inl ⟨e, rfl, rfl⟩
  | ok a1 =>
    obtain ⟨status, bodyText, token, -, -, ha1⟩ := refresh_token_ok_shape hr
    subst ha1
    exact Or.inr ⟨token, rfl, rfl⟩

/-- `get_access_token` either takes the fast path (valid cached token,
state untouched, no send) or equals the slow path. -/
theorem get_access_token_cases (a : EbayAuth) (tCheck : Nat) (http : HttpOutcome)
    (tCommit : Nat) :
    (∃ token expires_at, a.token = some token ∧
      a.token_expires_at = some expires_at ∧ tCheck < expires_at ∧
      a.get_access_token tCheck http tCommit =
        some ⟨.ok token.access_token, a, 0⟩) ∨
    (a.get_access_token tCheck http tCommit = a.get_access_token_slow http tCommit) := by
  unfold EbayAuth.get_access_token
  cases htok : a.token with
  | none => exact Or.inr rfl
  | some token =>
    cases hexp : a.token_expires_at with
    | none => exact Or.inr rfl
    | some expires_at =>
      by_cases hv : tCheck < expires_at
      · exact Or.inl ⟨token, expires_at, rfl, rfl, hv, by simp [hv]⟩
      · refine Or.inr ?_
        simp [hv]

/-- C10: `EbayAuth::new` is infallible — for every configuration it
returns `Ok` (never an error, despite the `Result` return type), and the
initial state has an absent cached token and an absent expiry. -/
theorem C10_new_infallible (config : EbayConfig) :
    ∃ a, EbayAuth.new config = .ok a ∧ a.config = config ∧
      a.token = none ∧ a.token_expires_at = none :=
  ⟨{ config := config, token := none, token_expires_at := none },
    rfl, rfl, rfl, rfl⟩

/-- C7: for every credential configuration the token-exchange URL is
`{base_url}/identity/v1/oauth2/token`, where `base_url` is one of exactly
two fixed strings selected by the sandbox flag (true picks the sandbox
host, false the production host), the two hosts differing only by the
extra `sandbox.` component prefixed to the shared `ebay.com` suffix. -/
theorem C7_token_endpoint (config : EbayConfig) :
    (refresh_request config).url = config.base_url ++ "/identity/v1/oauth2/token" ∧
    config.base_url =
      (if config.sandbox then "https://api.sandbox.ebay.com"
       else "https://api.ebay.com") ∧
    (∃ pre suf, "https://api.sandbox.ebay.com" = pre ++ "sandbox." ++ suf ∧
      "https://api.ebay.com" = pre ++ suf) :=
  ⟨rfl, rfl, "https://api.", "ebay.com", by decide, by decide⟩

/-- C2: every successful refresh caches exactly
`expires_at = now + (expires_in - 60)` with the subtraction saturating at
zero, i.e. `now + max(expires_in - 60, 0)` over the integers; so
`expires_in = 3600` gives `now + 3540` and any `expires_in ≤ 60` gives
`now` itself. -/
theorem C2_expiry_margin (a : EbayAuth) (now status : Nat) (bodyText : String)
    (token : EbayToken) (hs : statusIsSuccess status = true) :
    ∃ a1, a.refresh_token now (.response status bodyText (.ok token)) = .ok a1 ∧
      a1.token = some token ∧
      a1.token_expires_at = some (now + (token.expires_in - 60)) ∧
      ((now + (token.expires_in - 60) : ℕ) : ℤ) =
        (now : ℤ) + max ((token.expires_in : ℤ) - 60) 0 := by
  refine ⟨refreshedState a token now, ?_, rfl, rfl, ?_⟩
  · simp [EbayAuth.refresh_token, hs, refreshedState]
  · rcases Nat.le_total token.expires_in 60 with hle | hle
    · rw [max_eq_right (by omega : ((token.expires_in : ℤ) - 60) ≤ 0)]
      omega
    · rw [max_eq_left (by omega : (0 : ℤ) ≤ (token.expires_in : ℤ) - 60)]
      omega

/-- Witness for C2 at the two instances named by the spec:
`expires_in = 3600` yields `expires_at = 100 + 3540 = 3640`, and
`expires_in = 30` yields `expires_at = 100` (the issuance instant). -/
theorem C2_expiry_margin_witness :
    (∃ a1, sampleAuth.refresh_token 100 (.response 200 "" (.ok (sampleToken 3600)))
        = .ok a1 ∧ a1.token_expires_at = some 3640) ∧
    (∃ a1, sampleAuth.refresh_token 100 (.response 200 "" (.ok (sampleToken 30)))
        = .ok a1 ∧ a1.token_expires_at = some 100) := by
  constructor
  · obtain ⟨a1, h1, -, h3, -⟩ :=
      C2_expiry_margin sampleAuth 100 200 "" (sampleToken 3600) (by decide)
    exact ⟨a1, h1, by rw [h3]; rfl⟩
  · obtain ⟨a1, h1, -, h3, -⟩ :=
      C2_expiry_margin sampleAuth 100 200 "" (sampleToken 30) (by decide)
    exact ⟨a1, h1, by rw [h3]; rfl⟩

/-- C3: whenever a cached token exists and the check instant is strictly
before its expiry, `get_access_token` returns that token's
`access_token`, leaves the state unchanged, and performs zero HTTP
calls — for every HTTP oracle, i.e. the network is never consulted. -/
theorem C3_fast_path (a : EbayAuth) (token : EbayToken)
    (expires_at tCheck tCommit : Nat) (http : HttpOutcome)
    (htok : a.token = some token) (hexp : a.token_expires_at = some expires_at)
    (hvalid : tCheck < expires_at) :
    a.get_access_token tCheck http tCommit = some ⟨.ok token.access_token, a, 0⟩ := by
  unfold EbayAuth.get_access_token
  rw [htok, hexp]
  simp [hvalid]

/-- Witness for C3: a pre-loaded cache returns its token even when the
network would fail. -/
theorem C3_fast_path_witness :
    loadedAuth.get_access_token 5 (.sendError "net down") 6 =
      some ⟨.ok "tok", loadedAuth, 0⟩ :=
  C3_fast_path loadedAuth (sampleToken 3600) 1000 5 6 (.sendError "net down")
    rfl rfl (by decide)

/-- C9: every successful refresh leaves the token slot populated, the
slot never goes from populated back to absent across `get_access_token`,
and the unconditional `unwrap()` on the slow path can never panic:
`get_access_token` never returns the panic marker `none`. -/
theorem C9_unwrap_never_panics :
    (∀ (a a1 : EbayAuth) (now : Nat) (http : HttpOutcome),
        a.refresh_token now http = .ok a1 → a1.token.isSome = true) ∧
    (∀ (a : EbayAuth) (tCheck tCommit : Nat) (http : HttpOutcome)
        (r : GetTokenResult),
        a.get_access_token tCheck http tCommit = some r →
        a.token.isSome = true → r.state.token.isSome = true) ∧
    (∀ (a : EbayAuth) (tCheck tCommit : Nat) (http : HttpOutcome),
        (a.get_access_token tCheck http tCommit).isSome = true) := by
  refine ⟨?_, ?_, ?_⟩
  · intro a a1 now http h
    obtain ⟨status, bodyText, token, -, -, ha1⟩ := refresh_token_ok_shape h
    subst ha1
    rfl
  · intro a tCheck tCommit http r hget hsome
    rcases get_access_token_cases a tCheck http tCommit with
      ⟨token, expires_at, -, -, -, heq⟩ | heq
    · rw [heq] at hget
      cases hget
      exact hsome
    · rw [heq] at hget
      rcases slow_shape a http tCommit with ⟨e, -, hs⟩ | ⟨token, -, hs⟩
      · rw [hs] at hget
        cases hget
        exact hsome
      · rw [hs] at hget
        cases hget
        rfl
  · intro a tCheck tCommit http
    rcases get_access_token_cases a tCheck http tCommit with
      ⟨token, expires_at, -, -, -, heq⟩ | heq
    · rw [heq]
      rfl
    · rw [heq]
      rcases slow_shape a http tCommit with ⟨e, -, hs⟩ | ⟨token, -, hs⟩
      · rw [hs]
        rfl
      · rw [hs]
        rfl

/-- Witness for C9: a concrete fast-path call on a loaded cache keeps the
slot populated. -/
theorem C9_unwrap_never_panics_witness :
    loadedAuth.token.isSome = true :=
  C9_unwrap_never_panics.2.1 loadedAuth 5 6 (.sendError "boom")
    ⟨.ok "tok", loadedAuth, 0⟩ rfl rfl

end HermesClient

namespace HermesClient

/-- C1 counterexample: with an empty cache, check and commit instants
both 0, and a success response with `expires_in = 30`, `get_access_token`
returns `Ok` while the cached `expires_at` it just stored is tick 0 — the
commit (issuance) instant itself.  Every return instant `t` is ≥ 0, and no
`t : Nat` satisfies `t < 0`, so the returned token's expiry is not
strictly in the future at the moment of return: by the cache's own
fast-path bookkeeping (`now < expires_at`) the token is already expired,
refuting the claimed guarantee for the slow path with `expires_in ≤ 60`. -/
theorem C1_counterexample :
    ∃ r, sampleAuth.get_access_token 0 (.response 200 "" (.ok (sampleToken 30))) 0
        = some r ∧
      (∃ s, r.result = Except.ok s) ∧
      r.state.token_expires_at = some 0 ∧
      ∀ tReturn : Nat, ¬ tReturn < 0 :=
  ⟨⟨.ok "tok",
    { config := sampleConfig, token := some (sampleToken 30),
      token_expires_at := some 0 }, 1⟩,
    rfl, ⟨"tok", rfl⟩, rfl, fun t => Nat.not_lt_zero t⟩

/-- C1 amended: every `Ok` of `get_access_token` returns the
`access_token` of the cached entry, and the entry's `expires_at` is
strictly beyond the check instant on the fast path; on the slow path the
freshly refreshed token is returned without a further check, its expiry
being `tCommit + (expires_in - 60)` (saturating), which is strictly in
the future exactly when `expires_in > 60`. -/
theorem C1_amended (a : EbayAuth) (tCheck : Nat) (http : HttpOutcome) (tCommit : Nat)
    (r : GetTokenResult) (s : String)
    (hget : a.get_access_token tCheck http tCommit = some r)
    (hok : r.result = .ok s) :
    ∃ token expires_at, r.state.token = some token ∧
      r.state.token_expires_at = some expires_at ∧ s = token.access_token ∧
      ((r.httpCalls = 0 ∧ tCheck < expires_at) ∨
        (r.httpCalls = 1 ∧ expires_at = tCommit + (token.expires_in - 60))) := by
  rcases get_access_token_cases a tCheck http tCommit with
    ⟨token, expires_at, htok, hexp, hv, heq⟩ | heq
  · rw [heq] at hget
    cases hget
    refine ⟨token, expires_at, htok, hexp, ?_, Or.inl ⟨rfl, hv⟩⟩
    simp at hok
    exact hok.symm
  · rw [heq] at hget
    rcases slow_shape a http tCommit with ⟨e, hr, hs⟩ | ⟨token, hr, hs⟩
    · rw [hs] at hget
      cases hget
      simp at hok
    · rw [hs] at hget
      cases hget
      refine ⟨token, tCommit + (token.expires_in - 60), rfl, rfl, ?_,
        Or.inr ⟨rfl, rfl⟩⟩
      simp at hok
      exact hok.symm

/-- Witness for the amended C1 on a concrete fast-path call. -/
theorem C1_amended_witness :
    ∃ token expires_at, loadedAuth.token = some token ∧
      loadedAuth.token_expires_at = some expires_at ∧
      "tok" = token.access_token ∧
      (((0 : Nat) = 0 ∧ 5 < expires_at) ∨
        ((0 : Nat) = 1 ∧ expires_at = 6 + (token.expires_in - 60))) :=
  C1_amended loadedAuth 5 (.sendError "boom") 6
    ⟨.ok "tok", loadedAuth, 0⟩ "tok" rfl rfl

/-- C4: whenever the fast-path guard fails and the refresh fails — send
failure, non-2xx status, or unparseable 2xx body — `get_access_token`
returns exactly the refresh error, an `Authentication` whose detail
carries the send error, the HTTP status with the response body text, or
the parse error respectively, and the previous cache state (token and
expiry alike) is left completely unchanged, no stale token substituted. -/
theorem C4_atomic_failure (a : EbayAuth) (tCheck : Nat) (http : HttpOutcome)
    (tCommit : Nat) (e : HermesError)
    (hmiss : a.cacheValid tCheck = false)
    (hfail : a.refresh_token tCommit http = .error e) :
    a.get_access_token tCheck http tCommit = some ⟨.error e, a, 1⟩ ∧
    (∃ detail, e = .Authentication detail) ∧
    (∀ msg, http = .sendError msg → e = .Authentication msg) ∧
    (∀ status bodyText parsed, http = .response status bodyText parsed →
      statusIsSuccess status = false →
      e = .Authentication
        ("Failed to get token: " ++ toString status ++ " - " ++ bodyText)) ∧
    (∀ status bodyText pe, http = .response status bodyText (.error pe) →
      statusIsSuccess status = true →
      e = .Authentication ("Failed to parse token response: " ++ pe)) := by
  have hmain : a.get_access_token tCheck http tCommit = some ⟨.error e, a, 1⟩ := by
    rw [get_access_token_of_invalid hmiss]
    rcases slow_shape a http tCommit with ⟨e2, hr, hs⟩ | ⟨token, hr, hs⟩
    · rw [hr] at hfail
      cases hfail
      exact hs
    · rw [hr] at hfail
      cases hfail
  refine ⟨hmain, ?_, ?_, ?_, ?_⟩
  · rcases refresh_token_error_shape hfail with
      ⟨msg, -, he⟩ | ⟨status, bodyText, parsed, -, -, he⟩ | ⟨status, bodyText, pe, -, -, he⟩
    · exact ⟨msg, he⟩
    · exact ⟨_, he⟩
    · exact ⟨_, he⟩
  · intro msg hmsg
    subst hmsg
    rcases refresh_token_error_shape hfail with
      ⟨msg2, heq, he⟩ | ⟨status, bodyText, parsed, heq, -, -⟩ | ⟨status, bodyText, pe, heq, -, -⟩
    · cases heq
      exact he
    · cases heq
    · cases heq
  · intro status bodyText parsed hresp hbad
    subst hresp
    rcases refresh_token_error_shape hfail with
      ⟨msg2, heq, -⟩ | ⟨status2, bodyText2, parsed2, heq, -, he⟩ |
      ⟨status2, bodyText2, pe, heq, hgood, -⟩
    · cases heq
    · cases heq
      exact he
    · cases heq
      rw [hgood] at hbad
      cases hbad
  · intro status bodyText pe hresp hgood
    subst hresp
    rcases refresh_token_error_shape hfail with
      ⟨msg2, heq, -⟩ | ⟨status2, bodyText2, parsed2, heq, hbad, -⟩ |
      ⟨status2, bodyText2, pe2, heq, -, he⟩
    · cases heq
    · cases heq
      rw [hgood] at hbad
      cases hbad
    · cases heq
      exact he

/-- Witness for C4 on the three failure modes, against an empty cache:
the state is returned unchanged and the detail strings are as claimed. -/
theorem C4_atomic_failure_witness :
    sampleAuth.get_access_token 0 (.sendError "connection reset") 0 =
      some ⟨.error (.Authentication "connection reset"), sampleAuth, 1⟩ ∧
    sampleAuth.get_access_token 0 (.response 401 "denied" (.error "eof")) 0 =
      some ⟨.error (.Authentication "Failed to get token: 401 - denied"),
        sampleAuth, 1⟩ ∧
    sampleAuth.get_access_token 0 (.response 200 "\x7b\x7d" (.error "missing field access_token")) 0 =
      some ⟨.error
        (.Authentication "Failed to parse token response: missing field access_token"),
        sampleAuth, 1⟩ := by
  refine ⟨?_, ?_, ?_⟩
  · exact (C4_atomic_failure sampleAuth 0 (.sendError "connection reset") 0
      (.Authentication "connection reset") rfl rfl).1
  · exact (C4_atomic_failure sampleAuth 0 (.response 401 "denied" (.error "eof")) 0
      (.Authentication "Failed to get token: 401 - denied") rfl rfl).1
  · exact (C4_atomic_failure sampleAuth 0
      (.response 200 "\x7b\x7d" (.error "missing field access_token")) 0
      (.Authentication "Failed to parse token response: missing field access_token")
      rfl rfl).1

/-- C5: whenever the cache is empty or not strictly before its expiry at
the check instant, a single `get_access_token` call performs exactly one
HTTP send, and when it returns `Ok` the value is the `access_token` of
the token cached by that refresh. -/
theorem C5_single_refresh (a : EbayAuth) (tCheck : Nat) (http : HttpOutcome)
    (tCommit : Nat) (hmiss : a.cacheValid tCheck = false) :
    ∃ r, a.get_access_token tCheck http tCommit = some r ∧ r.httpCalls = 1 ∧
      ∀ s, r.result = .ok s →
        ∃ token, r.state.token = some token ∧ s = token.access_token ∧
          r.state = refreshedState a token tCommit := by
  rw [get_access_token_of_invalid hmiss]
  rcases slow_shape a http tCommit with ⟨e, hr, hs⟩ | ⟨token, hr, hs⟩
  · refine ⟨_, hs, rfl, ?_⟩
    intro s hok
    simp at hok
  · refine ⟨_, hs, rfl, ?_⟩
    intro s hok
    simp at hok
    exact ⟨token, rfl, hok.symm, rfl⟩

/-- Witness for C5: an expired pre-loaded cache triggers one send. -/
theorem C5_single_refresh_witness :
    ∃ r, loadedAuth.get_access_token 1000 (.sendError "boom") 1005 = some r ∧
      r.httpCalls = 1 ∧
      ∀ s, r.result = .ok s →
        ∃ token, r.state.token = some token ∧ s = token.access_token ∧
          r.state = refreshedState loadedAuth token 1005 :=
  C5_single_refresh loadedAuth 1000 (.sendError "boom") 1005 rfl

/-- C6: `get_auth_header` succeeds exactly when `get_access_token` does,
on the same state and the same number of HTTP calls: on success it
returns exactly `"Bearer " ++` the token `get_access_token` returns at
that instant, and on failure it returns that very same error. -/
theorem C6_auth_header (a : EbayAuth) (tCheck : Nat) (http : HttpOutcome)
    (tCommit : Nat) :
    ∃ r hd, a.get_access_token tCheck http tCommit = some r ∧
      a.get_auth_header tCheck http tCommit = some hd ∧
      hd.state = r.state ∧ hd.httpCalls = r.httpCalls ∧
      (∀ s, r.result = .ok s → hd.result = .ok ("Bearer " ++ s)) ∧
      (∀ e, r.result = .error e → hd.result = .error e) := by
  have hex : ∃ r, a.get_access_token tCheck http tCommit = some r := by
    rcases get_access_token_cases a tCheck http tCommit with
      ⟨token, expires_at, -, -, -, heq⟩ | heq
    · exact ⟨_, heq⟩
    · rcases slow_shape a http tCommit with ⟨e, -, hs⟩ | ⟨token, -, hs⟩
      · exact ⟨_, heq.trans hs⟩
      · exact ⟨_, heq.trans hs⟩
  obtain ⟨r, hr⟩ := hex
  cases hres : r.result with
  | ok s =>
    refine ⟨r, ⟨.ok ("Bearer " ++ s), r.state, r.httpCalls⟩, hr, ?_, rfl, rfl, ?_, ?_⟩
    · simp [EbayAuth.get_auth_header, hr, hres]
    · intro s2 h2
      rw [hres] at h2
      simp at h2
      subst h2
      rfl
    · intro e2 h2
      rw [hres] at h2
      simp at h2
  | error e =>
    refine ⟨r, ⟨.error e, r.state, r.httpCalls⟩, hr, ?_, rfl, rfl, ?_, ?_⟩
    · simp [EbayAuth.get_auth_header, hr, hres]
    · intro s2 h2
      rw [hres] at h2
      simp at h2
    · intro e2 h2
      rw [hres] at h2
      simp at h2
      subst h2
      rfl

/-- Witness for C6 on a concrete fast-path call. -/
theorem C6_auth_header_witness :
    ∃ r hd, loadedAuth.get_access_token 5 (.sendError "boom") 6 = some r ∧
      loadedAuth.get_auth_header 5 (.sendError "boom") 6 = some hd ∧
      hd.state = r.state ∧ hd.httpCalls = r.httpCalls ∧
      (∀ s, r.result = .ok s → hd.result = .ok ("Bearer " ++ s)) ∧
      (∀ e, r.result = .error e → hd.result = .error e) :=
  C6_auth_header loadedAuth 5 (.sendError "boom") 6

end HermesClient

namespace TwoLock

/-- Two tasks holding the same lock are the same task. -/
theorem holder_eq {s : Sys} {lock : Option Nat} {hold : Phase → Bool}
    (L : ∀ k, lock = some k ↔ hold (s.tasks k).phase = true) {i j : Nat}
    (hi : hold (s.tasks i).phase = true) (hj : hold (s.tasks j).phase = true) :
    i = j :=
  Option.some.inj (((L i).mpr hi).symm.trans ((L j).mpr hj))

/-- Acquiring a free lock establishes the lock bookkeeping clause. -/
theorem acq_L {s : Sys} {lock : Option Nat} {hold : Phase → Bool} {i : Nat}
    {tNew : Task}
    (L : ∀ k, lock = some k ↔ hold (s.tasks k).phase = true)
    (hl : lock = none) (hNew : hold tNew.phase = true) :
    ∀ j, (some i : Option Nat) = some j ↔
      hold ((Function.update s.tasks i tNew) j).phase = true := by
  intro j
  rcases eq_or_ne j i with rfl | hj
  · rw [Function.update_same, hNew]
    simp
  · rw [Function.update_noteq hj]
    constructor
    · intro hij
      exact absurd (Option.some.inj hij).symm hj
    · intro hh
      have hc := (L j).mpr hh
      rw [hl] at hc
      exact Option.noConfusion hc

/-- A step that does not change a lock nor the hold-status of the moved
task preserves the lock bookkeeping clause. -/
theorem upd_L {s : Sys} {lock : Option Nat} {hold : Phase → Bool} {i : Nat}
    {tNew : Task}
    (L : ∀ k, lock = some k ↔ hold (s.tasks k).phase = true)
    (hsame : hold tNew.phase = hold (s.tasks i).phase) :
    ∀ j, lock = some j ↔
      hold ((Function.update s.tasks i tNew) j).phase = true := by
  intro j
  rcases eq_or_ne j i with rfl | hj
  · rw [Function.update_same, hsame]
    exact L j
  · rw [Function.update_noteq hj]
    exact L j

/-- Releasing a lock one holds establishes the bookkeeping clause for the
freed lock. -/
theorem rel_L {s : Sys} {lock : Option Nat} {hold : Phase → Bool} {i : Nat}
    {tNew : Task}
    (L : ∀ k, lock = some k ↔ hold (s.tasks k).phase = true)
    (hi : hold (s.tasks i).phase = true) (hNew : hold tNew.phase = false) :
    ∀ j, (none : Option Nat) = some j ↔
      hold ((Function.update s.tasks i tNew) j).phase = true := by
  intro j
  constructor
  · intro hc
    exact Option.noConfusion hc
  · intro hh
    rcases eq_or_ne j i with rfl | hj
    · rw [Function.update_same, hNew] at hh
      exact Bool.noConfusion hh
    · rw [Function.update_noteq hj] at hh
      exact absurd (holder_eq L hi hh) (Ne.symm hj)

/-- A step that keeps `tokVal` and moves a task to a non-`w4` phase
preserves the mid-write clause. -/
theorem upd_E {s : Sys} {i : Nat} {tNew : Task} {v : Nat}
    (E : ∀ k, (s.tasks k).phase = .w4 → v = (s.tasks k).ver)
    (hNew : tNew.phase = .w4 → v = tNew.ver) :
    ∀ j, ((Function.update s.tasks i tNew) j).phase = .w4 →
      v = ((Function.update s.tasks i tNew) j).ver := by
  intro j hj4
  rcases eq_or_ne j i with rfl | hj
  · rw [Function.update_same] at hj4 ⊢
    exact hNew hj4
  · rw [Function.update_noteq hj] at hj4 ⊢
    exact E j hj4

/-- A step that keeps both slot values and moves a task between non-`w4`
phases preserves the pair-consistency clause. -/
theorem upd_F {s : Sys} {i : Nat} {tNew : Task}
    (F : (∀ k, (s.tasks k).phase ≠ .w4) → s.tokVal = s.expVal)
    (hOld : (s.tasks i).phase ≠ .w4) :
    (∀ j, ((Function.update s.tasks i tNew) j).phase ≠ .w4) →
      s.tokVal = s.expVal := by
  intro hno
  apply F
  intro k
  rcases eq_or_ne k i with rfl | hk
  · exact hOld
  · have hnk := hno k
    rw [Function.update_noteq hk] at hnk
    exact hnk

/-- A step that keeps `tokVal` preserves the in-flight-read clause when
the moved task itself satisfies it. -/
theorem upd_G {s : Sys} {i : Nat} {tNew : Task} {v : Nat}
    (G : ∀ k, (s.tasks k).phase = .r3 → (s.tasks k).regTok = v)
    (hNew : tNew.phase = .r3 → tNew.regTok = v) :
    ∀ j, ((Function.update s.tasks i tNew) j).phase = .r3 →
      ((Function.update s.tasks i tNew) j).regTok = v := by
  intro j hj3
  rcases eq_or_ne j i with rfl | hj
  · rw [Function.update_same] at hj3 ⊢
    exact hNew hj3
  · rw [Function.update_noteq hj] at hj3 ⊢
    exact G j hj3

/-- A step preserves the completed-read clause when the moved task itself
satisfies it. -/
theorem upd_H {s : Sys} {i : Nat} {tNew : Task}
    (H : ∀ k, ((s.tasks k).phase = .r4 ∨ (s.tasks k).phase = .r5) →
      (s.tasks k).regTok = (s.tasks k).regExp)
    (hNew : (tNew.phase = .r4 ∨ tNew.phase = .r5) → tNew.regTok = tNew.regExp) :
    ∀ j, (((Function.update s.tasks i tNew) j).phase = .r4 ∨
        ((Function.update s.tasks i tNew) j).phase = .r5) →
      ((Function.update s.tasks i tNew) j).regTok =
        ((Function.update s.tasks i tNew) j).regExp := by
  intro j hj45
  rcases eq_or_ne j i with rfl | hj
  · rw [Function.update_same] at hj45 ⊢
    exact hNew hj45
  · rw [Function.update_noteq hj] at hj45 ⊢
    exact H j hj45

/-- The writer's first write (`w3 → w4`): it holds the token lock, so no
other task is at `w4` and the new `tokVal` is its own version. -/
theorem wrTok_E {s : Sys} {i : Nat}
    (L1 : ∀ k, s.tokLock = some k ↔ holdsTok (s.tasks k).phase = true)
    (h : (s.tasks i).phase = .w3) :
    ∀ j, ((Function.update s.tasks i (setPhase (s.tasks i) .w4)) j).phase = .w4 →
      (s.tasks i).ver =
        ((Function.update s.tasks i (setPhase (s.tasks i) .w4)) j).ver := by
  intro j hj4
  rcases eq_or_ne j i with rfl | hj
  · rw [Function.update_same]
    rfl
  · rw [Function.update_noteq hj] at hj4 ⊢
    have hik : i = j := holder_eq L1 (by rw [h]; rfl) (by rw [hj4]; rfl)
    exact absurd hik.symm hj

/-- While the writer holds the token lock no task is at `r3`, so the
in-flight-read clause holds for any slot value. -/
theorem wrTok_G {s : Sys} {i : Nat} {v : Nat}
    (L1 : ∀ k, s.tokLock = some k ↔ holdsTok (s.tasks k).phase = true)
    (h : (s.tasks i).phase = .w3) :
    ∀ j, ((Function.update s.tasks i (setPhase (s.tasks i) .w4)) j).phase = .r3 →
      ((Function.update s.tasks i (setPhase (s.tasks i) .w4)) j).regTok = v := by
  intro j hj3
  rcases eq_or_ne j i with rfl | hj
  · rw [Function.update_same] at hj3
    exact Phase.noConfusion hj3
  · rw [Function.update_noteq hj] at hj3
    have hik : i = j := holder_eq L1 (by rw [h]; rfl) (by rw [hj3]; rfl)
    exact absurd hik.symm hj

/-- The reader's second read (`r3 → r4`): it holds the token lock, so no
writer is mid-write, the pair is consistent, and the read it already made
agrees with the expiry it reads now. -/
theorem readExp_H {s : Sys} {i : Nat}
    (L1 : ∀ k, s.tokLock = some k ↔ holdsTok (s.tasks k).phase = true)
    (F : (∀ k, (s.tasks k).phase ≠ .w4) → s.tokVal = s.expVal)
    (G : ∀ k, (s.tasks k).phase = .r3 → (s.tasks k).regTok = s.tokVal)
    (H : ∀ k, ((s.tasks k).phase = .r4 ∨ (s.tasks k).phase = .r5) →
      (s.tasks k).regTok = (s.tasks k).regExp)
    (h : (s.tasks i).phase = .r3) :
    ∀ j, (((Function.update s.tasks i
          { s.tasks i with phase := .r4, regExp := s.expVal }) j).phase = .r4 ∨
        ((Function.update s.tasks i
          { s.tasks i with phase := .r4, regExp := s.expVal }) j).phase = .r5) →
      ((Function.update s.tasks i
          { s.tasks i with phase := .r4, regExp := s.expVal }) j).regTok =
        ((Function.update s.tasks i
          { s.tasks i with phase := .r4, regExp := s.expVal }) j).regExp := by
  intro j hj45
  rcases eq_or_ne j i with rfl | hj
  · rw [Function.update_same]
    show (s.tasks j).regTok = s.expVal
    have hnw : ∀ k, (s.tasks k).phase ≠ .w4 := by
      intro k hk
      have hjk : j = k := holder_eq L1 (by rw [h]; rfl) (by rw [hk]; rfl)
      rw [← hjk, h] at hk
      exact Phase.noConfusion hk
    rw [G j h]
    exact F hnw
  · rw [Function.update_noteq hj] at hj45 ⊢
    exact H j hj45

/-- Every step preserves the invariant. -/
theorem step_inv {s s2 : Sys} (hinv : Inv s) (hstep : Step s s2) : Inv s2 := by
  obtain ⟨L1, L2, E, F, G, H⟩ := hinv
  cases hstep with
  | readAcqTok i h hl =>
    exact ⟨acq_L L1 hl rfl, upd_L L2 (by rw [h]; rfl),
      upd_E E (fun hc => Phase.noConfusion hc), upd_F F (by rw [h]; decide),
      upd_G G (fun hc => Phase.noConfusion hc),
      upd_H H (fun hc => hc.elim (fun h1 => Phase.noConfusion h1)
        (fun h2 => Phase.noConfusion h2))⟩
  | readAcqExp i h hl =>
    exact ⟨upd_L L1 (by rw [h]; rfl), acq_L L2 hl rfl,
      upd_E E (fun hc => Phase.noConfusion hc), upd_F F (by rw [h]; decide),
      upd_G G (fun hc => Phase.noConfusion hc),
      upd_H H (fun hc => hc.elim (fun h1 => Phase.noConfusion h1)
        (fun h2 => Phase.noConfusion h2))⟩
  | readTok i h =>
    exact ⟨upd_L L1 (by rw [h]; rfl), upd_L L2 (by rw [h]; rfl),
      upd_E E (fun hc => Phase.noConfusion hc), upd_F F (by rw [h]; decide),
      upd_G G (fun _ => rfl),
      upd_H H (fun hc => hc.elim (fun h1 => Phase.noConfusion h1)
        (fun h2 => Phase.noConfusion h2))⟩
  | readExp i h =>
    exact ⟨upd_L L1 (by rw [h]; rfl), upd_L L2 (by rw [h]; rfl),
      upd_E E (fun hc => Phase.noConfusion hc), upd_F F (by rw [h]; decide),
      upd_G G (fun hc => Phase.noConfusion hc),
      readExp_H L1 F G H h⟩
  | readRel i h =>
    exact ⟨rel_L L1 (by rw [h]; rfl) rfl, rel_L L2 (by rw [h]; rfl) rfl,
      upd_E E (fun hc => Phase.noConfusion hc), upd_F F (by rw [h]; decide),
      upd_G G (fun hc => Phase.noConfusion hc),
      upd_H H (fun _ => H i (Or.inl h))⟩
  | slowAcqTok i h hl =>
    exact ⟨acq_L L1 hl rfl, upd_L L2 (by rw [h]; rfl),
      upd_E E (fun hc => Phase.noConfusion hc), upd_F F (by rw [h]; decide),
      upd_G G (fun hc => Phase.noConfusion hc),
      upd_H H (fun hc => hc.elim (fun h1 => Phase.noConfusion h1)
        (fun h2 => Phase.noConfusion h2))⟩
  | slowRead i h =>
    exact ⟨upd_L L1 (by rw [h]; rfl), upd_L L2 (by rw [h]; rfl),
      upd_E E (fun hc => Phase.noConfusion hc), upd_F F (by rw [h]; decide),
      upd_G G (fun hc => Phase.noConfusion hc),
      upd_H H (fun hc => hc.elim (fun h1 => Phase.noConfusion h1)
        (fun h2 => Phase.noConfusion h2))⟩
  | slowRel i h =>
    exact ⟨rel_L L1 (by rw [h]; rfl) rfl, upd_L L2 (by rw [h]; rfl),
      upd_E E (fun hc => Phase.noConfusion hc), upd_F F (by rw [h]; decide),
      upd_G G (fun hc => Phase.noConfusion hc),
      upd_H H (fun hc => hc.elim (fun h1 => Phase.noConfusion h1)
        (fun h2 => Phase.noConfusion h2))⟩
  | netDone i h =>
    exact ⟨upd_L L1 (by rw [h]; rfl), upd_L L2 (by rw [h]; rfl),
      upd_E E (fun hc => Phase.noConfusion hc), upd_F F (by rw [h]; decide),
      upd_G G (fun hc => Phase.noConfusion hc),
      upd_H H (fun hc => hc.elim (fun h1 => Phase.noConfusion h1)
        (fun h2 => Phase.noConfusion h2))⟩
  | wrAcqTok i h hl =>
    exact ⟨acq_L L1 hl rfl, upd_L L2 (by rw [h]; rfl),
      upd_E E (fun hc => Phase.noConfusion hc), upd_F F (by rw [h]; decide),
      upd_G G (fun hc => Phase.noConfusion hc),
      upd_H H (fun hc => hc.elim (fun h1 => Phase.noConfusion h1)
        (fun h2 => Phase.noConfusion h2))⟩
  | wrAcqExp i h hl =>
    exact ⟨upd_L L1 (by rw [h]; rfl), acq_L L2 hl rfl,
      upd_E E (fun hc => Phase.noConfusion hc), upd_F F (by rw [h]; decide),
      upd_G G (fun hc => Phase.noConfusion hc),
      upd_H H (fun hc => hc.elim (fun h1 => Phase.noConfusion h1)
        (fun h2 => Phase.noConfusion h2))⟩
  | wrTok i h =>
    refine ⟨upd_L L1 (by rw [h]; rfl), upd_L L2 (by rw [h]; rfl), wrTok_E L1 h, ?_,
      wrTok_G L1 h,
      upd_H H (fun hc => hc.elim (fun h1 => Phase.noConfusion h1)
        (fun h2 => Phase.noConfusion h2))⟩
    intro hno
    refine absurd ?_ (hno i)
    show (Function.update s.tasks i (setPhase (s.tasks i) Phase.w4) i).phase = Phase.w4
    rw [Function.update_same]
    rfl
  | wrExp i h =>
    exact ⟨upd_L L1 (by rw [h]; rfl), upd_L L2 (by rw [h]; rfl),
      upd_E E (fun hc => Phase.noConfusion hc), fun _ => E i h,
      upd_G G (fun hc => Phase.noConfusion hc),
      upd_H H (fun hc => hc.elim (fun h1 => Phase.noConfusion h1)
        (fun h2 => Phase.noConfusion h2))⟩
  | wrRel i h =>
    exact ⟨rel_L L1 (by rw [h]; rfl) rfl, rel_L L2 (by rw [h]; rfl) rfl,
      upd_E E (fun hc => Phase.noConfusion hc), upd_F F (by rw [h]; decide),
      upd_G G (fun hc => Phase.noConfusion hc),
      upd_H H (fun hc => hc.elim (fun h1 => Phase.noConfusion h1)
        (fun h2 => Phase.noConfusion h2))⟩

/-- Initial states satisfy the invariant. -/
theorem init_inv {s : Sys} (h : Init s) : Inv s := by
  obtain ⟨hT, hE, hV, hP⟩ := h
  refine ⟨?_, ?_, ?_, fun _ => hV, ?_, ?_⟩
  · intro i
    rw [hT]
    constructor
    · intro hc
      exact Option.noConfusion hc
    · intro hh
      rcases hP i with h0 | h0 | h0 <;> rw [h0] at hh <;> exact Bool.noConfusion hh
  · intro i
    rw [hE]
    constructor
    · intro hc
      exact Option.noConfusion hc
    · intro hh
      rcases hP i with h0 | h0 | h0 <;> rw [h0] at hh <;> exact Bool.noConfusion hh
  · intro i hi
    rcases hP i with h0 | h0 | h0 <;> rw [h0] at hi <;> exact Phase.noConfusion hi
  · intro i hi
    rcases hP i with h0 | h0 | h0 <;> rw [h0] at hi <;> exact Phase.noConfusion hi
  · intro i hi
    rcases hi with hc | hc <;>
      rcases hP i with h0 | h0 | h0 <;> rw [h0] at hc <;> exact Phase.noConfusion hc

end TwoLock

namespace TwoLock

/-- A concrete initial pool: even-indexed tasks are dual-field readers,
odd-indexed tasks are refresh writers with pairwise distinct versions. -/
def initSys : Sys :=
  { tasks := fun i =>
      { phase := if i % 2 = 0 then .r0 else .w0, ver := i + 1,
        regTok := 0, regExp := 0 }
    tokLock := none
    expLock := none
    tokVal := 0
    expVal := 0 }

/-- `initSys` is an initial state. -/
theorem initSys_init : Init initSys := by
  refine ⟨rfl, rfl, rfl, ?_⟩
  intro i
  by_cases h : i % 2 = 0
  · exact Or.inl (by simp [initSys, h])
  · exact Or.inr (Or.inr (by simp [initSys, h]))

/-- C8: in every state reachable from an initial state under any
interleaving of the two-mutex protocol, (1) every task that completed the
dual-field read of `get_access_token` observed a consistent pair — its
token read and its expiry read carry the same commit version, so a token
from one refresh is never paired with the expiry of another, the pair
being committed as one atomic unit — and (2) no task whose token-exchange
network call is in flight (phase `w0`) holds either lock guarding the
cached token. -/
theorem C8_atomic_pair (s0 s : Sys) (h0 : Init s0)
    (hreach : Relation.ReflTransGen Step s0 s) :
    (∀ i, ((s.tasks i).phase = .r4 ∨ (s.tasks i).phase = .r5) →
      (s.tasks i).regTok = (s.tasks i).regExp) ∧
    (∀ i, (s.tasks i).phase = .w0 →
      s.tokLock ≠ some i ∧ s.expLock ≠ some i) := by
  have hinv : Inv s := by
    induction hreach with
    | refl => exact init_inv h0
    | tail hab hbc ih => exact step_inv ih hbc
  obtain ⟨L1, L2, -, -, -, H⟩ := hinv
  constructor
  · exact H
  · intro i hi
    constructor
    · intro hc
      have hh := (L1 i).mp hc
      rw [hi] at hh
      exact Bool.noConfusion hh
    · intro hc
      have hh := (L2 i).mp hc
      rw [hi] at hh
      exact Bool.noConfusion hh

/-- Witness for C8 at the concrete initial pool. -/
theorem C8_atomic_pair_witness :
    (∀ i, ((initSys.tasks i).phase = .r4 ∨ (initSys.tasks i).phase = .r5) →
      (initSys.tasks i).regTok = (initSys.tasks i).regExp) ∧
    (∀ i, (initSys.tasks i).phase = .w0 →
      initSys.tokLock ≠ some i ∧ initSys.expLock ≠ some i) :=
  C8_atomic_pair initSys initSys initSys_init Relation.ReflTransGen.refl

end TwoLock
